import Mathlib

/-!
# Verification of the link-preview metadata service (src/api/index.js)

A shallow embedding of the metadata-extraction handler in `src/api/index.js`.
The HTML parse tree (cheerio) is modelled as a rose tree of elements; the
WHATWG `URL` constructor used by the code is modelled for the fragment of its
behaviour the handler exercises (absolute parsing of special and opaque
schemes, resolution of path-absolute and path-relative references).
JavaScript strings are modelled as Lean `String`s; `toLowerCase`, `split`,
`includes`, `parseInt` and `Number` are modelled for the ASCII inputs the
handler deals with (hostnames, size attributes).  Machine-level notes are
given on each definition that makes a modelling choice.
-/

/-- A node of the parsed HTML document: an element with a tag name, an
attribute list (first occurrence of an attribute name wins, as in HTML
parsing) and children, or a text node.  This models the read-only
`DocumentView` that `cheerio.load` hands to the extractor code. -/
inductive HNode where
  | el (tag : String) (attrs : List (String × String)) (children : List HNode)
  | txt (s : String)
deriving Repr, Inhabited

/-- A parsed document: the list of top-level nodes (children of the root). -/
abbrev HDoc := List HNode

/-- Attribute lookup on a node, as `$(el).attr(name)`: the first attribute
with the given name, `undefined` (`none`) on a text node or a missing
attribute. -/
def HNode.attr : HNode → String → Option String
  | .txt _, _ => none
  | .el _ attrs _, n => (attrs.find? (fun p => p.1 == n)).map (·.2)

/-- The tag of a node (`""` for text nodes). -/
def HNode.tagName : HNode → String
  | .txt _ => ""
  | .el t _ _ => t

mutual
/-- `$(el).text()`: the concatenation of all descendant text, in order. -/
def HNode.textContent : HNode → String
  | .txt s => s
  | .el _ _ cs => textOfNodes cs
/-- Text concatenation over a node list. -/
def textOfNodes : List HNode → String
  | [] => ""
  | n :: ns => n.textContent ++ textOfNodes ns
end

mutual
/-- All element nodes of a node list in document (pre-)order, each paired
with its parent element (`none` for top-level elements, whose cheerio
parent is the root). -/
def elsWithParent (parent : Option HNode) : List HNode → List (Option HNode × HNode)
  | [] => []
  | n :: ns => elsWithParentNode parent n ++ elsWithParent parent ns
/-- Element nodes of one subtree in pre-order, paired with parents. -/
def elsWithParentNode (parent : Option HNode) : HNode → List (Option HNode × HNode)
  | .txt _ => []
  | .el t attrs cs =>
    (parent, HNode.el t attrs cs) :: elsWithParent (some (HNode.el t attrs cs)) cs
end

/-- All element nodes of the document in document order. -/
def allEls (d : HDoc) : List HNode := (elsWithParent none d).map (·.2)

/-- `$(selector)`: the elements matching a predicate, in document order.
A comma-separated selector list is modelled as the disjunction of the member
predicates, which matches cheerio's document-order semantics for unions. -/
def selectD (d : HDoc) (p : HNode → Bool) : List HNode := (allEls d).filter p

/-- Like `selectD`, but keeping each match's parent (for `$(el).parent()`). -/
def selectWithParent (d : HDoc) (p : HNode → Bool) : List (Option HNode × HNode) :=
  (elsWithParent none d).filter (fun pe => p pe.2)

/-- `$(parent).find(selector)`: matching strict descendants of `parent`;
when the parent is the root (`none`) this searches the whole document. -/
def findUnder (d : HDoc) (parent : Option HNode) (p : HNode → Bool) : List HNode :=
  match parent with
  | none => selectD d p
  | some (.txt _) => []
  | some (.el _ _ cs) => (elsWithParent none cs).map (·.2) |>.filter p

/-- `$(sel).attr(name)`: the attribute of the first matching element,
`undefined` (`none`) when the selection is empty or the attribute missing. -/
def attrFirst (d : HDoc) (p : HNode → Bool) (n : String) : Option String :=
  (selectD d p).head? >>= (HNode.attr · n)

/-- `$(sel).text()`: concatenated text of every matching element (cheerio
concatenates over the whole selection). -/
def textAll (d : HDoc) (p : HNode → Bool) : String :=
  (selectD d p).foldl (fun acc e => acc ++ e.textContent) ""

/-- `$(sel).first().text()`: text of the first match, `""` when none. -/
def firstText (d : HDoc) (p : HNode → Bool) : String :=
  match (selectD d p).head? with
  | some e => e.textContent
  | none => ""

/-! ## JavaScript string primitives (ASCII model) -/

/-- JS `String.prototype.toLowerCase` for one character, ASCII part:
`A`–`Z` map down by 32, everything else is unchanged.  (The handler only
lowercases hostnames, which are ASCII.) -/
def lcChar (c : Char) : Char :=
  if 65 ≤ c.toNat ∧ c.toNat ≤ 90 then Char.ofNat (c.toNat + 32) else c

/-- JS `toLowerCase` on a string (ASCII model). -/
def jsToLower (s : String) : String := String.mk (s.data.map lcChar)

/-- Decimal digit test (`0`–`9`), byte-level. -/
def isDigitC (c : Char) : Bool := 48 ≤ c.toNat && c.toNat ≤ 57

/-- Is `pre` a prefix of `l`? -/
def leadsWith : List Char → List Char → Bool
  | [], _ => true
  | _ :: _, [] => false
  | a :: as, b :: bs => a == b && leadsWith as bs

/-- Does `l` contain `sub` as a contiguous sublist? -/
def hasSub (sub : List Char) : List Char → Bool
  | [] => leadsWith sub []
  | c :: cs => leadsWith sub (c :: cs) || hasSub sub cs

/-- JS `s.includes(sub)`. -/
def jsIncludes (s sub : String) : Bool := hasSub sub.data s.data

/-- Character-list split on a separator, as JS `split` with a one-character
separator: `splitChars '.' "a..b" = ["a","","b"]`, `splitChars '.' "" = [""]`. -/
def splitChars (sep : Char) : List Char → List (List Char)
  | [] => [[]]
  | c :: cs =>
    if c == sep then [] :: splitChars sep cs
    else
      match splitChars sep cs with
      | r :: rs => (c :: r) :: rs
      | [] => [[c]]

/-- JS `s.split(sep)` for a one-character separator. -/
def jsSplit (sep : Char) (s : String) : List String :=
  (splitChars sep s.data).map String.mk

/-- JS `s.split(sep)[0]` (always defined: `split` never returns `[]`). -/
def jsSplitHead (sep : Char) (s : String) : String := (jsSplit sep s).headD ""

/-- JS `parseInt(s)` restricted to the inputs the handler meets: the longest
leading run of decimal digits, `NaN` (`none`) when there is none.  (Leading
whitespace, signs and the hex prefix are not modelled; `sizes` attributes
and `width` attributes are plain decimal.) -/
def parseIntOpt (s : String) : Option Int :=
  let ds := s.data.takeWhile isDigitC
  if ds.isEmpty then none
  else some (ds.foldl (fun a c => a * 10 + (Int.ofNat c.toNat - 48)) 0)

/-- JS `Number(s)` on an all-digit string (the only use site is guarded by
the IPv4 regex, which guarantees 1–3 decimal digits). -/
def jsNumberNat (s : String) : Nat :=
  s.data.foldl (fun a c => a * 10 + (c.toNat - 48)) 0

/-- JS truthiness filter for string values: `undefined` and `""` are falsy. -/
def truthy (o : Option String) : Option String :=
  o.bind (fun s => if s == "" then none else some s)

/-- `a || b` on JS string-or-undefined values. -/
def jsOr (a b : Option String) : Option String :=
  match truthy a with
  | some s => some s
  | none => b

/-- First truthy value of a list (the value of a `x1 || x2 || ... || null`
chain). -/
def firstTruthy (l : List (Option String)) : Option String :=
  l.findSome? truthy

/-- JS `s.startsWith(p)`, character-level. -/
def strStarts (s p : String) : Bool := leadsWith p.data s.data

/-- Drop the first `n` characters of a string (the tail left when
stripping a matched `www.` prefix). -/
def dropStr (s : String) (n : Nat) : String := String.mk (s.data.drop n)

/-- JS whitespace for `trim` (ASCII part). -/
def isWsChar (c : Char) : Bool :=
  c == ' ' || c == '\t' || c == '\n' || c == '\r' || c == '\x0b' || c == '\x0c'

/-- JS `s.trim()`: strip leading and trailing whitespace (ASCII model). -/
def jsTrim (s : String) : String :=
  String.mk (((s.data.dropWhile isWsChar).reverse.dropWhile isWsChar).reverse)

/-! ## WHATWG `URL` model (the fragment the handler exercises) -/

/-- Scheme characters after the first (which must be a letter). -/
def schemeChar (c : Char) : Bool :=
  c.isAlpha || isDigitC c || c == '+' || c == '-' || c == '.'

/-- Split `"scheme:rest"` at the first `:` provided everything before it is
a scheme character; `none` when the input has no scheme. -/
def splitScheme : List Char → Option (List Char × List Char)
  | [] => none
  | c :: cs =>
    if c == ':' then some ([], cs)
    else if schemeChar c then (splitScheme cs).map (fun pr => (c :: pr.1, pr.2))
    else none

/-- Parse the scheme of a URL string: lowercased scheme and the remainder
after the colon, `none` when the string does not start `scheme:` with a
letter first. -/
def parseScheme (s : String) : Option (String × String) :=
  match s.data with
  | [] => none
  | c :: _ =>
    if c.isAlpha then
      (splitScheme s.data).map (fun pr => (String.mk (pr.1.map lcChar), String.mk pr.2))
    else none

/-- The WHATWG special schemes that carry an authority. -/
def specialSchemes : List String := ["http", "https", "ws", "wss", "ftp"]

/-- A parsed URL, as the fields of a JS `URL` object that the handler reads.
For a non-special (opaque) scheme such as `data:` the host is `""` and
`path` holds the whole opaque body.  The port is kept verbatim (with its
leading `:`); default-port elision is not modelled — the handler never
compares ports. -/
structure JSUrl where
  scheme : String
  host : String
  port : String
  path : String
deriving Repr, DecidableEq, Inhabited

/-- Does the URL use a special (authority-carrying) scheme? -/
def JSUrl.isSpecial (u : JSUrl) : Bool := specialSchemes.contains u.scheme

/-- `url.href`, the serialization. -/
def JSUrl.href (u : JSUrl) : String :=
  if u.isSpecial then u.scheme ++ "://" ++ u.host ++ u.port ++ u.path
  else u.scheme ++ ":" ++ u.path

/-- `url.protocol` (scheme with trailing colon). -/
def JSUrl.protocol (u : JSUrl) : String := u.scheme ++ ":"

/-- Split an authority's remainder at the path/query/fragment boundary. -/
def splitAuthority (l : List Char) : List Char × List Char :=
  (l.takeWhile (fun c => !(c == '/' || c == '?' || c == '#')),
   l.dropWhile (fun c => !(c == '/' || c == '?' || c == '#')))

/-- Split `host[:port]`.  An IPv6 literal keeps its brackets in the host, as
`new URL("http://[::1]/").hostname = "[::1]"`. -/
def splitHostPort (a : List Char) : List Char × List Char :=
  match a with
  | '[' :: rest =>
    let h := rest.takeWhile (fun c => !(c == ']'))
    let t := rest.dropWhile (fun c => !(c == ']'))
    ('[' :: h ++ [']'], (t.drop 1))
  | _ => (a.takeWhile (fun c => !(c == ':')), a.dropWhile (fun c => !(c == ':')))

/-- `new URL(input)` with one argument: parse an absolute URL.  Special
schemes require `"//"` then a non-empty authority (the one-slash and
zero-slash WHATWG tolerances are not modelled; the handler's inputs are
well-formed).  Hostnames are lowercased, as the parser does.  Credentials
in the authority are not modelled. -/
def parseURL (s : String) : Option JSUrl :=
  match parseScheme s with
  | none => none
  | some (sc, rest) =>
    if specialSchemes.contains sc then
      if strStarts rest "//" then
        let body := rest.data.drop 2
        let (auth, pathRest) := splitAuthority body
        let (h, p) := splitHostPort auth
        if h.isEmpty then none
        else
          let path :=
            match pathRest with
            | [] => "/"
            | c :: _ => if c == '/' then String.mk pathRest else "/" ++ String.mk pathRest
          some { scheme := sc, host := String.mk (h.map lcChar), port := String.mk p, path := path }
      else none
    else
      some { scheme := sc, host := "", port := "", path := rest }

/-- Everything of a path up to and including the last `/` (the directory a
relative reference is resolved in); `"/"` when the path has no slash. -/
def dirOf (path : String) : String :=
  let l := path.data.reverse.dropWhile (fun c => !(c == '/'))
  match l with
  | [] => "/"
  | _ => String.mk l.reverse

/-- `new URL(input, base).href`, or `none` where the constructor throws.
Covers the reference shapes the handler resolves: absolute inputs (any
scheme, including opaque ones such as `data:`), protocol-relative `//…`,
path-absolute `/…`, query-only `?…`, fragment-only `#…`, and path-relative
references.  Dot-segment normalization is not modelled (no caller in the
handler resolves `..` segments). -/
def newURL (input : String) (base : String) : Option String :=
  match parseScheme input with
  | some _ => (parseURL input).map JSUrl.href
  | none =>
    (parseURL base).bind fun b =>
      if !b.isSpecial then none
      else if input == "" then some b.href
      else if strStarts input "//" then (parseURL (b.scheme ++ ":" ++ input)).map JSUrl.href
      else if strStarts input "/" then some (b.scheme ++ "://" ++ b.host ++ b.port ++ input)
      else if strStarts input "?" then
        some (b.scheme ++ "://" ++ b.host ++ b.port ++ jsSplitHead '?' b.path ++ input)
      else if strStarts input "#" then some (b.href ++ input)
      else some (b.scheme ++ "://" ++ b.host ++ b.port ++ dirOf b.path ++ input)

/-! ## URL validator (src/api/index.js lines 36–88) -/

/-- The handler's blocked-host list (line 42).  Membership is tested with
`Array.prototype.includes`, i.e. exact string equality. -/
def blockedHosts : List String :=
  ["localhost", "127.0.0.1", "0.0.0.0", "[::1]", "internal", "private"]

/-- The IPv4 literal test `^(\d{1,3}\.){3}\d{1,3}$` (line 60): four
dot-separated runs of one to three decimal digits. -/
def ipPattern (s : String) : Bool :=
  let ps := jsSplit '.' s
  ps.length == 4 &&
    ps.all (fun p => decide (1 ≤ p.data.length) && decide (p.data.length ≤ 3)
      && p.data.all isDigitC)

/-- The private-range test on `hostname.split('.').map(Number)` (lines
62–67): first octet 10, or 172 with second octet 16–31, or 192.168. -/
def privateParts (ps : List Nat) : Bool :=
  let p0 := ps.getD 0 0
  let p1 := ps.getD 1 0
  p0 == 10 || (p0 == 172 && 16 ≤ p1 && p1 ≤ 31) || (p0 == 192 && p1 == 168)

/-- The hostname gate of the validator (lines 51–74): the lowercased
hostname is rejected when it is exactly one of `blockedHosts` (403), or a
dotted-quad IPv4 literal in a private range (403).  Returns the status and
error label of the rejection, `none` when the hostname passes. -/
def hostCheck (host : String) : Option (Nat × String) :=
  let hostname := jsToLower host
  if blockedHosts.contains hostname then
    some (403, "Access to local/internal resources is blocked")
  else if ipPattern hostname then
    if privateParts ((jsSplit '.' hostname).map jsNumberNat) then
      some (403, "Private IP addresses are not allowed")
    else none
  else none

/-- Outcome of the URL-validation phase. -/
inductive ValidationResult where
  | reject (status : Nat) (error : String)
  | ok (pu : JSUrl)
deriving Repr, DecidableEq, Inhabited

/-- The whole validation phase (lines 36–88): parse (`new URL` throw →
400 "Invalid URL format"), hostname gate, then the protocol allow-list
(400 unless `http:`/`https:`). -/
def validateUrl (url : String) : ValidationResult :=
  match parseURL url with
  | none => .reject 400 "Invalid URL format"
  | some pu =>
    match hostCheck pu.host with
    | some (st, e) => .reject st e
    | none =>
      if pu.protocol == "http:" || pu.protocol == "https:" then .ok pu
      else .reject 400 "Only HTTP and HTTPS protocols are allowed"

/-! ## URL resolver (src/api/index.js lines 374–381) -/

/-- `resolveUrl` (lines 374–381), closed over the request's `url`: falsy
input → `null`; otherwise `new URL(relativeUrl, url).href`, and when that
throws, the input itself if it starts with `http`, else `null`. -/
def resolveUrl (url : String) (relativeUrl : Option String) : Option String :=
  match truthy relativeUrl with
  | none => none
  | some r =>
    match newURL r url with
    | some href => some href
    | none => if strStarts r "http" then some r else none

/-! ## Selector predicates used by the extractors -/

/-- `meta[property="v"]`. -/
def isMetaProp (v : String) (e : HNode) : Bool :=
  e.tagName == "meta" && e.attr "property" == some v

/-- `meta[name="v"]`. -/
def isMetaName (v : String) (e : HNode) : Bool :=
  e.tagName == "meta" && e.attr "name" == some v

/-- `link[rel="v"]`. -/
def isLinkRel (v : String) (e : HNode) : Bool :=
  e.tagName == "link" && e.attr "rel" == some v

/-- `$('meta[property="v"]').attr("content")`. -/
def metaProp (d : HDoc) (v : String) : Option String := attrFirst d (isMetaProp v) "content"

/-- `$('meta[name="v"]').attr("content")`. -/
def metaName (d : HDoc) (v : String) : Option String := attrFirst d (isMetaName v) "content"

/-- `x?.trim()` over an optional string. -/
def trimOpt (o : Option String) : Option String := o.map jsTrim

/-! ## Title and description extraction (lines 121–135) -/

/-- The title fallback chain of lines 122–129, written as the `||` chain of
the source: og:title, twitter:title, `meta[name="title"]`, `<title>` text,
first `<h1>` text, first `<h2>` text, og:site_name — each `?.trim()`ed,
empty results falling through. -/
def titleOf (d : HDoc) : Option String :=
  jsOr (trimOpt (metaProp d "og:title"))
    (jsOr (trimOpt (metaName d "twitter:title"))
      (jsOr (trimOpt (metaName d "title"))
        (jsOr (some (jsTrim (textAll d (fun e => e.tagName == "title"))))
          (jsOr (some (jsTrim (firstText d (fun e => e.tagName == "h1"))))
            (jsOr (some (jsTrim (firstText d (fun e => e.tagName == "h2"))))
              (jsOr (trimOpt (metaProp d "og:site_name")) none))))))

/-- The seven title sources of lines 122–128, in source order, as the
values each `||` link sees. -/
def titleSources (d : HDoc) : List (Option String) :=
  [ trimOpt (metaProp d "og:title")
  , trimOpt (metaName d "twitter:title")
  , trimOpt (metaName d "title")
  , some (jsTrim (textAll d (fun e => e.tagName == "title")))
  , some (jsTrim (firstText d (fun e => e.tagName == "h1")))
  , some (jsTrim (firstText d (fun e => e.tagName == "h2")))
  , trimOpt (metaProp d "og:site_name") ]

/-- The title chain exactly as the spec states it (§4.3): Open Graph title,
Twitter-card title, `<title>` text, first `<h1>`, first `<h2>`, Open Graph
site name — with no `meta[name="title"]` step.  Declared for comparison
against `titleOf`. -/
def specTitleChain (d : HDoc) : Option String :=
  firstTruthy
    [ trimOpt (metaProp d "og:title")
    , trimOpt (metaName d "twitter:title")
    , some (jsTrim (textAll d (fun e => e.tagName == "title")))
    , some (jsTrim (firstText d (fun e => e.tagName == "h1")))
    , some (jsTrim (firstText d (fun e => e.tagName == "h2")))
    , trimOpt (metaProp d "og:site_name") ]

/-- The description chain of lines 132–135. -/
def descriptionOf (d : HDoc) : Option String :=
  jsOr (trimOpt (metaProp d "og:description"))
    (jsOr (trimOpt (metaName d "twitter:description"))
      (jsOr (trimOpt (metaName d "description")) none))

/-! ## Image extraction (`extractImages`, lines 138–239) -/

/-- An entry of the `images` `Set` (line 139): Open Graph / Twitter sources
are added as strings (deduplicated by value), Apple touch icons as fresh
objects (never deduplicated, since JS `Set` compares objects by identity). -/
inductive ImgEntry where
  | str (s : String)
  | apple (url : String) (sizes : String)
deriving Repr, DecidableEq

/-- `Set.prototype.add` for a string entry: first insertion wins the
position, later equal strings are ignored. -/
def addStr (l : List ImgEntry) (s : String) : List ImgEntry :=
  if l.contains (ImgEntry.str s) then l else l ++ [ImgEntry.str s]

/-- Add every truthy `content` of the selection as a string entry, in
document order (the `$(sel).each` loops of lines 142–161). -/
def addMetaImgs (d : HDoc) (p : HNode → Bool) (l : List ImgEntry) : List ImgEntry :=
  (selectD d p).foldl
    (fun acc e =>
      match truthy (e.attr "content") with
      | some img => addStr acc img
      | none => acc)
    l

/-- The `images` set after all the additions of lines 142–174: og:image,
og:image:url, twitter:image, twitter:image:src strings, then one object per
Apple touch icon with a truthy `href` (`sizes` defaulting to `"unknown"`). -/
def imagesSet (d : HDoc) : List ImgEntry :=
  let l := addMetaImgs d (isMetaProp "og:image") []
  let l := addMetaImgs d (isMetaProp "og:image:url") l
  let l := addMetaImgs d (isMetaName "twitter:image") l
  let l := addMetaImgs d (isMetaName "twitter:image:src") l
  (selectD d (fun e => isLinkRel "apple-touch-icon" e || isLinkRel "apple-touch-icon-precomposed" e)).foldl
    (fun acc e =>
      match truthy (e.attr "href") with
      | some href => acc ++ [ImgEntry.apple href ((truthy (e.attr "sizes")).getD "unknown")]
      | none => acc)
    l

/-- An element of `imageArray` (lines 224–230): url, source type and, for
Apple entries, the sizes carried along by the object spread. -/
structure ImgObj where
  url : String
  type : String
  sizes : Option String := none
deriving Repr, DecidableEq

/-- Lines 224–230: each string entry is resolved against the request URL
(`new URL(img, url).href`), falling back to the raw string when the
constructor throws; object entries pass through unchanged. -/
def imageArray (d : HDoc) (url : String) : List ImgObj :=
  (imagesSet d).map fun e =>
    match e with
    | .apple u s => { url := u, type := "apple-touch-icon", sizes := some s }
    | .str s =>
      match newURL s url with
      | some href => { url := href, type := "meta" }
      | none => { url := s, type := "meta" }

/-- An element of `metaImages` (lines 183–188). `width` is `parseInt` of
the current element's `content` (possibly `NaN`, kept as `none`); `height`
is `parseInt(...) || 0`. -/
structure MetaImg where
  url : String
  width : Option Int
  height : Int
deriving Repr, DecidableEq

/-- Lines 177–189: for every `og:image:width` or `og:image:height` meta (in
document order), look for the first `og:image` under the same parent; keep
an entry when both that url and the current `content` are truthy. -/
def metaImagesOf (d : HDoc) : List MetaImg :=
  (selectWithParent d (fun e => isMetaProp "og:image:width" e || isMetaProp "og:image:height" e)).filterMap
    fun pe =>
      let width := pe.2.attr "content"
      let url := (findUnder d pe.1 (isMetaProp "og:image")).head? >>= (HNode.attr · "content")
      match truthy url, truthy width with
      | some u, some w =>
        let hRaw := (findUnder d pe.1 (isMetaProp "og:image:height")).head? >>= (HNode.attr · "content")
        some { url := u, width := parseIntOpt w
             , height := ((hRaw.bind parseIntOpt).getD 0) }
      | _, _ => none

/-- The icon objects gathered inside `extractImages` (lines 192–204), from
`link[rel*="icon"]` (substring match on `rel`). -/
structure ImgIconInfo where
  url : String
  sizes : String
  type : String
deriving Repr, DecidableEq

/-- Lines 192–204. -/
def imgIconsOf (d : HDoc) : List ImgIconInfo :=
  (selectD d (fun e => e.tagName == "link" &&
      (match e.attr "rel" with | some r => jsIncludes r "icon" | none => false))).filterMap
    fun e =>
      (truthy (e.attr "href")).map fun href =>
        { url := href
        , sizes := (truthy (e.attr "sizes")).getD "unknown"
        , type := (jsOr (e.attr "type") (jsOr (e.attr "rel") (some "icon"))).getD "icon" }

/-- The first `<img>` with a truthy `src`, a truthy `width` attribute and
`parseInt(width) > 100` (lines 207–221). -/
structure ContentImg where
  url : String
  width : Int
  alt : String
deriving Repr, DecidableEq

/-- Lines 207–221. -/
def contentImageOf (d : HDoc) : Option ContentImg :=
  ((selectD d (fun e => e.tagName == "img")).filterMap
    (fun e =>
      match truthy (e.attr "src"), truthy (e.attr "width") with
      | some src, some w =>
        match parseIntOpt w with
        | some v => if 100 < v then some { url := src, width := v, alt := (e.attr "alt").getD "" } else none
        | none => none
      | _, _ => none)).head?

/-! ## The JS `Array.prototype.sort` model

`sort` with a numeric comparator is a stable sort (ECMAScript 2019+); a
comparator returning `NaN` is treated as `0` (a tie).  We model it with a
stable insertion sort driven by the strict "comes before" relation
`lt a b ↔ comparator(a,b) < 0`; for a comparator that is a strict weak
order this is the unique stable result.  (For inconsistent comparators —
here only reachable through `NaN` priorities — ECMAScript leaves the order
implementation-defined, and this model fixes one.) -/

/-- Insert `x` (an earlier element) into the already-processed later
elements: walk past everything that strictly precedes `x`, then place `x`
before the rest (so ties keep `x`, the earlier element, first). -/
def insertStable (lt : α → α → Bool) (x : α) : List α → List α
  | [] => [x]
  | y :: ys => if lt y x then y :: insertStable lt x ys else x :: y :: ys

/-- The stable sort: fold `insertStable` over the list from the right. -/
def jsSort (lt : α → α → Bool) : List α → List α
  | [] => []
  | x :: xs => insertStable lt x (jsSort lt xs)

/-- Strict precedence for the `metaImages` comparator
`(b.width*b.height) - (a.width*a.height)` (line 234): larger area first,
`NaN` areas tie with everything. -/
def metaImgLt (a b : MetaImg) : Bool :=
  match a.width.map (· * a.height), b.width.map (· * b.height) with
  | some x, some y => decide (y < x)
  | _, _ => false

/-- The value `extractImages()` returns (lines 232–238).  `primary` is
`imageArray[0]?.url || metaImages[0]?.url || contentImage?.url || null`,
read after `metaImages` has been sorted in place. -/
structure ImagesInner where
  all : List ImgObj
  metaImages : List MetaImg
  icons : List ImgIconInfo
  contentImage : Option ContentImg
  primary : Option String
deriving Repr, DecidableEq

/-- `extractImages` (lines 138–239). -/
def extractImages (d : HDoc) (url : String) : ImagesInner :=
  let arr := imageArray d url
  let metas := jsSort metaImgLt (metaImagesOf d)
  let ci := contentImageOf d
  { all := arr
  , metaImages := metas
  , icons := imgIconsOf d
  , contentImage := ci
  , primary := jsOr (arr.head?.map (·.url))
      (jsOr (metas.head?.map (·.url)) (ci.map (·.url))) }

/-! ## Favicon extraction (`extractFavicon`, lines 242–316) -/

/-- What an icon-bearing `link` element declares, before the extractor
applies its defaults: the truthy `href`, the truthy `sizes` and `type`
attributes, and whether the link is an Apple touch icon. -/
structure RawIcon where
  href : String
  sizes : Option String
  typeAttr : Option String
  apple : Bool
deriving Repr, DecidableEq

/-- `link[rel="icon"], link[rel="shortcut icon"]` elements with a truthy
`href` (lines 246–258). -/
def rawStandardIcons (d : HDoc) : List RawIcon :=
  (selectD d (fun e => isLinkRel "icon" e || isLinkRel "shortcut icon" e)).filterMap
    fun e =>
      (truthy (e.attr "href")).map fun href =>
        { href := href, sizes := truthy (e.attr "sizes")
        , typeAttr := truthy (e.attr "type"), apple := false }

/-- Apple touch icon links with a truthy `href` (lines 261–272). -/
def rawAppleIcons (d : HDoc) : List RawIcon :=
  (selectD d (fun e => isLinkRel "apple-touch-icon" e || isLinkRel "apple-touch-icon-precomposed" e)).filterMap
    fun e =>
      (truthy (e.attr "href")).map fun href =>
        { href := href, sizes := truthy (e.attr "sizes")
        , typeAttr := truthy (e.attr "type"), apple := true }

/-- An icon candidate as pushed on the `icons` array of `extractFavicon`.
`priority` is a JS number; `none` stands for `NaN` (a sizes string that
`parseInt` cannot read). -/
structure IconCand where
  url : String
  sizes : String
  type : String
  priority : Option Int
deriving Repr, DecidableEq

/-- Lines 250–257: a standard icon's candidate.  `sizes` defaults to
`"16x16"`; `priority` is `parseInt(sizes.split('x')[0])` when a truthy
`sizes` was declared, else `16`. -/
def toStdCand (r : RawIcon) : IconCand :=
  { url := r.href
  , sizes := r.sizes.getD "16x16"
  , type := r.typeAttr.getD "icon/x-icon"
  , priority := match r.sizes with
      | some s => parseIntOpt (jsSplitHead 'x' s)
      | none => some 16 }

/-- Lines 263–271: an Apple touch icon's candidate, fixed priority 1000. -/
def toAppleCand (r : RawIcon) : IconCand :=
  { url := r.href, sizes := r.sizes.getD "180x180"
  , type := "apple-touch-icon", priority := some 1000 }

/-- The `icons` array just before the sort of line 299: standard icons
first, Apple touch icons second, in document order within each group. -/
def iconCandList (d : HDoc) : List IconCand :=
  (rawStandardIcons d).map toStdCand ++ (rawAppleIcons d).map toAppleCand

/-- Strict precedence between two JS-number priorities (`none` = `NaN`):
`optPriLt p q` holds when `p` strictly outranks `q`; a `NaN` ties with
everything (the comparator difference is `NaN`, treated as `0`). -/
def optPriLt (p q : Option Int) : Bool :=
  match p, q with
  | some x, some y => decide (y < x)
  | _, _ => false

/-- Strict precedence for the comparator `b.priority - a.priority`
(line 299): higher priority first, `NaN` ties with everything. -/
def iconLt (a b : IconCand) : Bool := optPriLt a.priority b.priority

/-- An icon of a fetched web-app manifest (lines 281–290). -/
structure ManIcon where
  src : String
  sizes : Option String
  mimeType : Option String
  purpose : Option String
deriving Repr, DecidableEq

/-- A fetched web-app manifest: its `icons` member, when it is an array. -/
structure Manifest where
  icons : Option (List ManIcon)
deriving Repr, DecidableEq

/-- What the manifest callback of lines 275–296 eventually pushes for a
given manifest environment `fetchM` (mapping a resolved manifest URL to the
fetched manifest, `none` for a failed fetch): one priority-900 candidate
per manifest icon.  The callback is an `async` function handed to
`.each`, so these pushes only run after `extractFavicon` has already
sorted, mapped and returned its snapshot — they are never part of the
returned value. -/
def manifestIconCands (d : HDoc) (url : String) (fetchM : String → Option Manifest) : List IconCand :=
  (selectD d (isLinkRel "manifest")).flatMap fun e =>
    match truthy (e.attr "href") with
    | none => []
    | some m =>
      match (newURL m url).bind fetchM with
      | none => []
      | some man =>
        match man.icons with
        | none => []
        | some l => l.map fun ic =>
            { url := ic.src, sizes := ic.sizes.getD "192x192"
            , type := ic.mimeType.getD "image/png", priority := some 900 }

/-- The value `extractFavicon()` returns (lines 312–315). -/
structure FaviconOut where
  all : List IconCand
  primary : String
deriving Repr, DecidableEq

/-- Line 301–310: resolve a sorted candidate's `url` against the request
URL, keeping the raw `href` when the constructor throws. -/
def resolveIconCand (url : String) (c : IconCand) : IconCand :=
  match newURL c.url url with
  | some href => { c with url := href }
  | none => c

/-- `extractFavicon` (lines 242–316).  The `fetchM` argument is the
manifest environment of the `async` callback; because that callback's
pushes happen after the synchronous snapshot (sort at line 299, map at
line 301, return at line 312), the returned value does not depend on it.
`primary` is `resolvedIcons[0]?.url || new URL('/favicon.ico', url).href`;
the fallback constructor cannot throw once the request URL has passed
validation, and the model returns `""` in the unreachable throwing case. -/
def extractFavicon (d : HDoc) (url : String) (_fetchM : String → Option Manifest) : FaviconOut :=
  let sorted := jsSort iconLt (iconCandList d)
  let resolved := sorted.map (resolveIconCand url)
  { all := resolved
  , primary :=
      match jsOr (resolved.head?.map (·.url)) (newURL "/favicon.ico" url) with
      | some s => s
      | none => "" }

/-! ## Spec-side icon ranking (§4.4 of the spec, for comparison) -/

/-- The priority score the spec's ranking clause describes, encoded
lexicographically: Apple touch icons above manifest icons above sized
standard icons (ordered among themselves by declared width × height parsed
from the `"WxH"` sizes string) above unsized icons. -/
def specIconScore (r : RawIcon) : Nat × Nat :=
  if r.apple then (3, 0)
  else
    match r.sizes with
    | some s =>
      match parseIntOpt (jsSplitHead 'x' s), parseIntOpt ((jsSplit 'x' s).getD 1 "") with
      | some w, some h => (1, (w * h).toNat)
      | _, _ => (0, 0)
    | none => (0, 0)

/-- Strict precedence under the spec's ranking: lexicographically larger
score first. -/
def specIconLt (a b : RawIcon) : Bool :=
  let sa := specIconScore a
  let sb := specIconScore b
  decide (sb.1 < sa.1) || (sa.1 == sb.1 && decide (sb.2 < sa.2))

/-- The candidate order the spec's ranking clause predicts: a stable sort
of the declared candidates by `specIconScore`, descending. -/
def specIconRank (d : HDoc) : List RawIcon :=
  jsSort specIconLt (rawStandardIcons d ++ rawAppleIcons d)

/-! ## Scalar metadata (lines 319–367) -/

/-- Lines 319: `keywords` — split on commas and trimmed when the meta is
present (even when its value is `""`, whose split is `[""]`), else `[]`. -/
def keywordsOf (d : HDoc) : List String :=
  match metaName d "keywords" with
  | some s => (jsSplit ',' s).map jsTrim
  | none => []

/-- JS `s.replace(pat, "")` for a one-character pattern: remove the first
occurrence only. -/
def removeFirstChar (pat : Char) : List Char → List Char
  | [] => []
  | c :: cs => if c == pat then cs else c :: removeFirstChar pat cs

/-- Lines 320–323: `author`. -/
def authorOf (d : HDoc) : Option String :=
  jsOr (metaName d "author")
    (jsOr (metaProp d "article:author")
      (jsOr ((metaName d "twitter:creator").map (fun s => String.mk (removeFirstChar '@' s.data))) none))

/-- Lines 325–327: `publisher`. -/
def publisherOf (d : HDoc) : Option String :=
  jsOr (metaProp d "article:publisher") (jsOr (metaName d "publisher") none)

/-- Lines 329–331: `publishedTime` (passthrough strings, no parsing). -/
def publishedTimeOf (d : HDoc) : Option String :=
  jsOr (metaProp d "article:published_time") (jsOr (metaName d "published") none)

/-- Lines 333–335: `modifiedTime`. -/
def modifiedTimeOf (d : HDoc) : Option String :=
  jsOr (metaProp d "article:modified_time") (jsOr (metaName d "modified") none)

/-- The response transport data the assembler reads.  Headers are an
association list with axios' lowercased names; `data` is the body text. -/
structure Resp where
  status : Nat
  statusText : String
  headers : List (String × String)
  data : String
deriving Repr, DecidableEq, Inhabited

/-- Header lookup, `response.headers[name]`. -/
def Resp.header (r : Resp) (n : String) : Option String :=
  (r.headers.find? (fun p => p.1 == n)).map (·.2)

/-- Lines 337–339: `contentType`. -/
def contentTypeOf (d : HDoc) (r : Resp) : String :=
  (jsOr (metaProp d "og:type")
    (jsOr ((r.header "content-type").map (jsSplitHead ';'))
      (some "website"))).getD "website"

/-- Lines 341–343: `locale`. -/
def localeOf (d : HDoc) : String :=
  (jsOr (metaProp d "og:locale")
    (jsOr (attrFirst d (fun e => e.tagName == "html") "lang") (some "en_US"))).getD "en_US"

/-- Lines 346–349: `themeColor`. -/
def themeColorOf (d : HDoc) : Option String :=
  jsOr (metaName d "theme-color")
    (jsOr (metaName d "msapplication-TileColor")
      (jsOr (metaName d "apple-mobile-web-app-status-bar-style") none))

/-- Line 352: any `<script>` element (the union selector
`script[src], script:not([src])` covers them all). -/
def hasJavascriptOf (d : HDoc) : Bool :=
  !(selectD d (fun e => e.tagName == "script")).isEmpty

/-- Line 353. -/
def hasFormsOf (d : HDoc) : Bool :=
  !(selectD d (fun e => e.tagName == "form")).isEmpty

/-- Line 354: `video, [data-video], iframe[src*="youtube"],
iframe[src*="vimeo"]`. -/
def hasVideoOf (d : HDoc) : Bool :=
  !(selectD d (fun e =>
      e.tagName == "video" || (e.attr "data-video").isSome ||
      (e.tagName == "iframe" &&
        (match e.attr "src" with
         | some s => jsIncludes s "youtube" || jsIncludes s "vimeo"
         | none => false)))).isEmpty

/-- Line 428: `meta[name="color-scheme"][content*="dark"],
meta[name="theme-color"][media*="dark"]`. -/
def hasDarkModeOf (d : HDoc) : Bool :=
  !(selectD d (fun e =>
      (isMetaName "color-scheme" e &&
        (match e.attr "content" with | some s => jsIncludes s "dark" | none => false)) ||
      (isMetaName "theme-color" e &&
        (match e.attr "media" with | some s => jsIncludes s "dark" | none => false)))).isEmpty

/-- `Buffer.byteLength(response.data, 'utf8')` (line 357). -/
def pageSizeOf (r : Resp) : Nat := r.data.utf8ByteSize

/-- The `${(pageSize / 1024).toFixed(2)} KB` rendering of line 436, with
`toFixed(2)` modelled as exact round-half-up to two decimals (the binary
floating-point tie noise of the real `toFixed` is not modelled). -/
def pageSizeKB (bytes : Nat) : String :=
  let cents := (bytes * 100 * 2 + 1024) / 2048
  let frac := cents % 100
  toString (cents / 100) ++ "." ++ (if frac < 10 then "0" else "") ++ toString frac ++ " KB"

/-- The Twitter part of the social group (lines 362–364 and 415–420). -/
structure TwitterSocial where
  card : Option String
  site : Option String
  creator : Option String
deriving Repr, DecidableEq

/-- The Facebook part of the social group (lines 366–367 and 421–424). -/
structure FacebookSocial where
  appId : Option String
  admins : Option String
deriving Repr, DecidableEq

/-- The `metadata.social` group. -/
structure SocialGroup where
  twitter : TwitterSocial
  facebook : FacebookSocial
deriving Repr, DecidableEq

/-- Modelled from the spec: lines 363, 364 and 367 of `src/api/index.js`
read the `twitter:site`, `twitter:creator` and `fb:admins` metas with a
mismatched quote — `attr("content')` — which leaves an unterminated string
literal, so the file as committed is not parseable JavaScript and these
three reads are missing from any runnable form of the module.  The spec's
§4.3 "scalar reads … each independently optional" is modelled here as the
evident intent, `attr("content")`; `twitter:card` (line 362) and
`fb:app_id` (line 366) are read exactly as written in the source. -/
def socialOf (d : HDoc) : SocialGroup :=
  { twitter :=
      { card := metaName d "twitter:card"
      , site := metaName d "twitter:site"
      , creator := metaName d "twitter:creator" }
  , facebook :=
      { appId := metaProp d "fb:app_id"
      , admins := metaProp d "fb:admins" } }

/-! ## The assembled MetadataRecord (`baseResponse`, lines 390–468) -/

/-- `metadata.basic`. -/
structure BasicMeta where
  title : Option String
  description : Option String
  keywords : Option (List String)
  author : Option String
  publisher : Option String
  contentType : String
  locale : String
deriving Repr, DecidableEq

/-- `metadata.dates`; `fetched` is `new Date().toISOString()` read at
assembly time (line 413). -/
structure DatesMeta where
  published : Option String
  modified : Option String
  fetched : String
deriving Repr, DecidableEq

/-- `metadata.appearance`. -/
structure AppearanceMeta where
  themeColor : Option String
  hasDarkMode : Bool
deriving Repr, DecidableEq

/-- `metadata.structure`. -/
structure StructureMeta where
  hasJavascript : Bool
  hasForms : Bool
  hasVideo : Bool
  domElements : Nat
  imageCount : Nat
  pageSize : String
deriving Repr, DecidableEq

/-- The `metadata` group of the record. -/
structure MetadataGroup where
  basic : BasicMeta
  dates : DatesMeta
  social : SocialGroup
  appearance : AppearanceMeta
  structural : StructureMeta
deriving Repr, DecidableEq

/-- The record's `images.contentImage`, whose `url` has been re-resolved
(and may have become `null`) while the object is kept (lines 449–452). -/
structure ContentImgOut where
  url : Option String
  width : Int
  alt : String
deriving Repr, DecidableEq

/-- The record's `images` facet (lines 439–453). -/
structure ImagesOut where
  primary : Option String
  all : List ImgObj
  metaImages : List MetaImg
  contentImage : Option ContentImgOut
deriving Repr, DecidableEq

/-- The record's `icons` facet (lines 454–460). -/
structure IconsOut where
  primary : String
  all : List IconCand
deriving Repr, DecidableEq

/-- `responseInfo` (lines 461–467). -/
structure RespInfo where
  status : Nat
  statusText : String
  contentType : Option String
  server : Option String
  poweredBy : Option String
deriving Repr, DecidableEq

/-- The assembled success record (`baseResponse`, lines 390–468), without
the optional `extended` block (the model covers the default
`extended=false` request shape). -/
structure MetadataRecord where
  success : Bool
  url : String
  canonical : String
  title : Option String
  description : Option String
  siteName : String
  hostname : String
  domain : String
  protocol : String
  metadata : MetadataGroup
  images : ImagesOut
  icons : IconsOut
  responseInfo : RespInfo
deriving Repr, DecidableEq

/-- Line 384–387: `siteName`. -/
def siteNameOf (d : HDoc) (hostname : String) : String :=
  let stripped := if strStarts hostname "www." then dropStr hostname 4 else hostname
  (jsOr (trimOpt (metaProp d "og:site_name"))
    (jsOr (trimOpt (metaName d "application-name"))
      (jsOr (some (jsSplitHead '.' stripped)) (some hostname)))).getD hostname

/-- Line 398: `domain` — the hostname with one leading `www.` stripped
(the regex `/^www\./` matches at most once). -/
def domainOf (hostname : String) : String :=
  if strStarts hostname "www." then dropStr hostname 4 else hostname

/-- The assembler (lines 319–468): a pure function of the parsed document,
the raw request `url` and its parse, the transport response, the assembly
wall-clock instant `now` (for `metadata.dates.fetched`), and the manifest
environment (which `extractFavicon` provably ignores). -/
def buildRecord (d : HDoc) (url : String) (pu : JSUrl) (r : Resp) (now : String)
    (fetchM : String → Option Manifest) : MetadataRecord :=
  let keywords := keywordsOf d
  let images := extractImages d url
  let favicon := extractFavicon d url fetchM
  { success := true
  , url := pu.href
  , canonical := ((jsOr (attrFirst d (isLinkRel "canonical") "href") (some pu.href)).getD pu.href)
  , title := titleOf d
  , description := descriptionOf d
  , siteName := siteNameOf d pu.host
  , hostname := pu.host
  , domain := domainOf pu.host
  , protocol := pu.scheme
  , metadata :=
    { basic :=
      { title := titleOf d
      , description := descriptionOf d
      , keywords := if keywords.isEmpty then none else some keywords
      , author := authorOf d
      , publisher := publisherOf d
      , contentType := contentTypeOf d r
      , locale := localeOf d }
    , dates :=
      { published := publishedTimeOf d
      , modified := modifiedTimeOf d
      , fetched := now }
    , social := socialOf d
    , appearance :=
      { themeColor := themeColorOf d
      , hasDarkMode := hasDarkModeOf d }
    , structural :=
      { hasJavascript := hasJavascriptOf d
      , hasForms := hasFormsOf d
      , hasVideo := hasVideoOf d
      , domElements := (selectD d (fun _ => true)).length
      , imageCount := (selectD d (fun e => e.tagName == "img")).length
      , pageSize := pageSizeKB (pageSizeOf r) } }
  , images :=
    { primary := resolveUrl url images.primary
    , all := images.all.filterMap
        (fun i => (resolveUrl url (some i.url)).map (fun u => { i with url := u }))
    , metaImages := images.metaImages.filterMap
        (fun i => (resolveUrl url (some i.url)).map (fun u => { i with url := u }))
    , contentImage := images.contentImage.map
        (fun c => { url := resolveUrl url (some c.url), width := c.width, alt := c.alt }) }
  , icons :=
    { primary := favicon.primary
    , all := favicon.all.filterMap
        (fun i => (resolveUrl url (some i.url)).map (fun u => { i with url := u })) }
  , responseInfo :=
    { status := r.status
    , statusText := r.statusText
    , contentType := r.header "content-type"
    , server := r.header "server"
    , poweredBy := r.header "x-powered-by" } }

/-- The record with its `metadata.dates.fetched` field blanked — the
projection that forgets the one assembly-time-dependent field. -/
def forgetFetched (m : MetadataRecord) : MetadataRecord :=
  { m with metadata := { m.metadata with dates := { m.metadata.dates with fetched := "" } } }

/-! ## Error classification and the handler (lines 4–562) -/

/-- `validateStatus` (line 113): axios resolves exactly for upstream
statuses in `[200, 500)`; anything else rejects with `err.response` set. -/
def validateStatus (status : Nat) : Bool := decide (200 ≤ status) && decide (status < 500)

/-- The `errorMap` of lines 516–542: status, stable `error` label and
human message per error code. -/
def errorMap (code : String) : Option (Nat × String × String) :=
  if code == "ECONNABORTED" then some (408, "Request Timeout", "The website took too long to respond")
  else if code == "ECONNREFUSED" then some (502, "Connection Refused", "Unable to connect to the website")
  else if code == "ENOTFOUND" then some (404, "Domain Not Found", "The domain could not be resolved")
  else if code == "ERR_BAD_REQUEST" then some (400, "Bad Request", "Invalid request to the target website")
  else if code == "ERR_BAD_RESPONSE" then some (502, "Bad Gateway", "The website returned an invalid response")
  else none

/-- The JSON error body of lines 556–560: `success:false` plus the spread
`errorInfo` (status, error, message) and the `timestamp`. -/
structure ErrBody where
  status : Nat
  error : String
  message : String
  timestamp : String
deriving Repr, DecidableEq

/-- Lines 544–554: start from `errorMap[err.code]` (default 500 with the
error's own message, or the catch-all text), then, when `err.response`
exists, override status, label (`HTTP <status>`) and message with the
upstream response's data. -/
def classifyError (code : String) (message : String) (response : Option Resp) (now : String) : ErrBody :=
  match response with
  | some r =>
    { status := r.status
    , error := "HTTP " ++ toString r.status
    , message := "Website returned " ++ toString r.status ++ " " ++ r.statusText
    , timestamp := now }
  | none =>
    match errorMap code with
    | some (st, e, m) => { status := st, error := e, message := m, timestamp := now }
    | none =>
      { status := 500, error := "Internal Server Error"
      , message := if message == "" then "Failed to process request" else message
      , timestamp := now }

/-- The transport outcome of the single outbound fetch: either the origin
answered (any status; axios turns a status outside `[200,500)` into a
rejection carrying the response), or the request failed at the network
level with an error code (`ECONNABORTED` for the timeout abort,
`ENOTFOUND`, `ECONNREFUSED`, …) and an error message. -/
inductive FetchOutcome where
  | ok (resp : Resp)
  | netFail (code : String) (message : String)
deriving Repr

/-- A response body of the handler: a success record, a classified error
body, or a validation rejection (whose JSON carries `success:false` and the
error label).  Note an `err`/`reject` body has no `metadata` field — only
`ok` carries a record. -/
inductive RespBody where
  | ok (r : MetadataRecord)
  | err (e : ErrBody)
  | reject (status : Nat) (error : String)
deriving Repr

/-- Is the body a success record? -/
def RespBody.isOk : RespBody → Bool
  | .ok _ => true
  | _ => false

/-- axios' error code for a rejected-by-`validateStatus` response: 4xx
statuses are labelled `ERR_BAD_REQUEST`, others `ERR_BAD_RESPONSE`.  (The
label is irrelevant downstream: `err.response` overrides the mapping.) -/
def axiosBadStatusCode (status : Nat) : String :=
  if 400 ≤ status ∧ status < 500 then "ERR_BAD_REQUEST" else "ERR_BAD_RESPONSE"

/-- The GET handler for a present `url` query parameter (lines 26–562),
with the HTML parser abstracted as `load`, assembly time as `now` and the
manifest environment as `fetchM`: validation gates the fetch (a rejection
returns before any transport is consulted); a fetch whose status passes
`validateStatus` is parsed and assembled into a 200 success record; any
other outcome goes through the error classifier, whose status becomes the
response status. -/
def handlerModel (load : String → HDoc) (fetchM : String → Option Manifest)
    (now : String) (url : String) (t : FetchOutcome) : Nat × RespBody :=
  match validateUrl url with
  | .reject st e => (st, .reject st e)
  | .ok pu =>
    match t with
    | .ok resp =>
      if validateStatus resp.status then
        (200, .ok (buildRecord (load resp.data) url pu resp now fetchM))
      else
        let e := classifyError (axiosBadStatusCode resp.status) "" (some resp) now
        (e.status, .err e)
    | .netFail code msg =>
      let e := classifyError code msg none now
      (e.status, .err e)

/-! ## Small spec-side definitions used by the theorems -/

/-- One to three decimal digits — one component of the IPv4 literal shape
`^(\d{1,3}\.){3}\d{1,3}$`. -/
def digits13 (s : String) : Bool :=
  !s.data.isEmpty && decide (s.data.length ≤ 3) && s.data.all isDigitC

/-- A document fragment holding one `meta[name=n]` per present value. -/
def optMetaN (n : String) (v : Option String) : HDoc :=
  match v with
  | none => []
  | some s => [HNode.el "meta" [("name", n), ("content", s)] []]

/-- A document fragment holding one `meta[property=p]` per present value. -/
def optMetaP (p : String) (v : Option String) : HDoc :=
  match v with
  | none => []
  | some s => [HNode.el "meta" [("property", p), ("content", s)] []]

/-- A document carrying exactly the chosen social meta tags, each
independently present or absent. -/
def mkSocialDoc (card site creator appId admins : Option String) : HDoc :=
  optMetaN "twitter:card" card ++ optMetaN "twitter:site" site ++
  optMetaN "twitter:creator" creator ++ optMetaP "fb:app_id" appId ++
  optMetaP "fb:admins" admins

/-! ## General lemmas about the `Array.prototype.sort` model -/

/-- Inserting an element produces a permutation of consing it. -/
theorem insertStable_perm {α : Type} (lt : α → α → Bool) (x : α) :
    ∀ l : List α, (insertStable lt x l).Perm (x :: l)
  | [] => List.Perm.refl _
  | y :: ys => by
    unfold insertStable
    by_cases h : lt y x = true
    · simp only [h, if_true]
      exact ((insertStable_perm lt x ys).cons y).trans (List.Perm.swap x y ys)
    · simp only [Bool.not_eq_true] at h
      simp only [h, Bool.false_eq_true, if_false]
      exact List.Perm.refl _

/-- The sort is a permutation. -/
theorem jsSort_perm {α : Type} (lt : α → α → Bool) :
    ∀ l : List α, (jsSort lt l).Perm l
  | [] => List.Perm.refl _
  | x :: xs => by
    unfold jsSort
    exact (insertStable_perm lt x (jsSort lt xs)).trans ((jsSort_perm lt xs).cons x)

/-- Inserting into a list with no out-of-order pair keeps that shape,
given asymmetry of `lt` everywhere and a transitivity-like law on the
list's members. -/
theorem insertStable_pairwise {α : Type} (lt : α → α → Bool) (x : α)
    (hasym : ∀ a b, lt a b = true → lt b a = false) :
    ∀ l : List α,
      (∀ a b, a ∈ l → b ∈ l → lt b a = false → lt a x = false → lt b x = false) →
      l.Pairwise (fun a b => lt b a = false) →
      (insertStable lt x l).Pairwise (fun a b => lt b a = false)
  | [], _, _ => by simp [insertStable]
  | y :: ys, htr, hp => by
    rw [List.pairwise_cons] at hp
    obtain ⟨hy, hys⟩ := hp
    unfold insertStable
    by_cases h : lt y x = true
    · simp only [h, if_true]
      rw [List.pairwise_cons]
      refine ⟨?_, ?_⟩
      · intro z hz
        rcases List.mem_cons.mp ((insertStable_perm lt x ys).mem_iff.mp hz) with hz' | hz'
        · subst hz'
          exact hasym y z h
        · exact hy z hz'
      · exact insertStable_pairwise lt x hasym ys
          (fun a b ha hb => htr a b (List.mem_cons_of_mem y ha) (List.mem_cons_of_mem y hb))
          hys
    · simp only [Bool.not_eq_true] at h
      simp only [h, Bool.false_eq_true, if_false]
      rw [List.pairwise_cons]
      refine ⟨?_, ?_⟩
      · intro z hz
        rcases List.mem_cons.mp hz with hz' | hz'
        · subst hz'; exact h
        · exact htr y z (List.mem_cons_self y ys) (List.mem_cons_of_mem y hz') (hy z hz') h
      · rw [List.pairwise_cons]
        exact ⟨hy, hys⟩

/-- The sorted list has no out-of-order pair: no later element strictly
precedes an earlier one, given asymmetry everywhere and transitivity of
non-precedence on the list's members. -/
theorem jsSort_pairwise {α : Type} (lt : α → α → Bool)
    (hasym : ∀ a b, lt a b = true → lt b a = false) :
    ∀ l : List α,
      (∀ a b c, a ∈ l → b ∈ l → c ∈ l → lt c b = false → lt b a = false → lt c a = false) →
      (jsSort lt l).Pairwise (fun a b => lt b a = false)
  | [], _ => by simp [jsSort]
  | x :: xs, htr => by
    unfold jsSort
    refine insertStable_pairwise lt x hasym (jsSort lt xs) ?_ ?_
    · intro a b ha hb h1 h2
      have ha' := List.mem_cons_of_mem x ((jsSort_perm lt xs).mem_iff.mp ha)
      have hb' := List.mem_cons_of_mem x ((jsSort_perm lt xs).mem_iff.mp hb)
      exact htr x a b (List.mem_cons_self x xs) ha' hb' h1 h2
    · exact jsSort_pairwise lt hasym xs
        (fun a b c h1 h2 h3 => htr a b c (List.mem_cons_of_mem x h1)
          (List.mem_cons_of_mem x h2) (List.mem_cons_of_mem x h3))

/-- Inserting an element outside the filtered class leaves the filter
untouched. -/
theorem filter_insertStable_neg {α : Type} (lt : α → α → Bool) (p : α → Bool) (x : α)
    (hx : p x = false) :
    ∀ l : List α, (insertStable lt x l).filter p = l.filter p
  | [] => by simp [insertStable, List.filter, hx]
  | y :: ys => by
    unfold insertStable
    by_cases h : lt y x = true
    · simp only [h, if_true, List.filter_cons]
      rw [filter_insertStable_neg lt p x hx ys]
    · simp only [Bool.not_eq_true] at h
      simp only [h, Bool.false_eq_true, if_false, List.filter_cons, hx]

/-- Inserting an element of the filtered class puts it first among them,
when everything walked past is outside the class. -/
theorem filter_insertStable_pos {α : Type} (lt : α → α → Bool) (p : α → Bool) (x : α)
    (hx : p x = true) :
    ∀ l : List α, (∀ y ∈ l, lt y x = true → p y = false) →
      (insertStable lt x l).filter p = x :: l.filter p
  | [], _ => by simp [insertStable, List.filter, hx]
  | y :: ys, hstop => by
    unfold insertStable
    by_cases h : lt y x = true
    · have hpy : p y = false := hstop y (List.mem_cons_self y ys) h
      simp only [h, if_true, List.filter_cons, hpy, Bool.false_eq_true, if_false]
      exact filter_insertStable_pos lt p x hx ys
        (fun z hz => hstop z (List.mem_cons_of_mem y hz))
    · simp only [Bool.not_eq_true] at h
      simp only [h, Bool.false_eq_true, if_false, List.filter_cons, hx, if_true]

/-- Stability of the sort: when all members of a class tie with each other
(the comparator never strictly orders two of them), the sort preserves the
class's subsequence exactly. -/
theorem jsSort_filter_class {α : Type} (lt : α → α → Bool) (p : α → Bool)
    (hcompat : ∀ a b, p a = true → p b = true → lt a b = false) :
    ∀ l : List α, (jsSort lt l).filter p = l.filter p
  | [] => rfl
  | x :: xs => by
    unfold jsSort
    by_cases hx : p x = true
    · rw [filter_insertStable_pos lt p x hx (jsSort lt xs) ?_,
        jsSort_filter_class lt p hcompat xs, List.filter_cons, hx, if_pos rfl]
      intro y hy hlt
      by_contra hpy
      simp only [Bool.not_eq_false] at hpy
      rw [hcompat y x hpy hx] at hlt
      exact Bool.false_ne_true hlt
    · simp only [Bool.not_eq_true] at hx
      rw [filter_insertStable_neg lt p x hx (jsSort lt xs),
        jsSort_filter_class lt p hcompat xs, List.filter_cons, hx]
      simp

/-! ## Helper lemmas: truthiness, strings, splitting, lowercasing -/

/-- A truthy value is never the empty string. -/
theorem truthy_eq_some {o : Option String} {s : String} (h : truthy o = some s) : s ≠ "" := by
  cases o with
  | none => simp [truthy] at h
  | some t =>
    rw [truthy, Option.some_bind] at h
    by_cases ht : t = ""
    · rw [if_pos (beq_iff_eq.mpr ht)] at h
      cases h
    · rw [if_neg (fun hbe => ht (beq_iff_eq.mp hbe))] at h
      cases h
      exact ht

/-- A non-empty string is its own truthy value. -/
theorem truthy_some_self {s : String} (h : s ≠ "") : truthy (some s) = some s := by
  rw [truthy, Option.some_bind, if_neg (fun hbe => h (beq_iff_eq.mp hbe))]

/-- A string with a non-empty character list is not `""`. -/
theorem string_ne_empty {s : String} (h : s.data ≠ []) : s ≠ "" := by
  intro he
  subst he
  exact h rfl

/-- Lowercasing fixes decimal digits. -/
theorem lcChar_digit {c : Char} (h : isDigitC c = true) : lcChar c = c := by
  simp only [isDigitC, Bool.and_eq_true, decide_eq_true_eq] at h
  unfold lcChar
  rw [if_neg]
  omega

/-- Lowercasing fixes the dot. -/
theorem lcChar_dot : lcChar '.' = '.' := by decide

/-- Lowercasing a string all of whose characters it fixes is the identity. -/
theorem jsToLower_invariant {s : String} (h : ∀ c ∈ s.data, lcChar c = c) :
    jsToLower s = s := by
  unfold jsToLower
  rw [List.map_congr_left h, List.map_id']

/-- The cons-case equation of `splitChars`. -/
theorem splitChars_cons (sep c : Char) (cs : List Char) :
    splitChars sep (c :: cs) =
      if (c == sep) = true then [] :: splitChars sep cs
      else
        match splitChars sep cs with
        | r :: rs => (c :: r) :: rs
        | [] => [[c]] := rfl

/-- Splitting a separator-free list yields the list itself. -/
theorem splitChars_no_sep (sep : Char) :
    ∀ l : List Char, sep ∉ l → splitChars sep l = [l]
  | [], _ => rfl
  | c :: cs, h => by
    have hc : ¬(c == sep) = true := by
      simp only [beq_iff_eq]
      intro he
      exact h (he ▸ List.mem_cons_self c cs)
    unfold splitChars
    rw [if_neg hc, splitChars_no_sep sep cs (fun hm => h (List.mem_cons_of_mem c hm))]

/-- Splitting `l1 ++ sep :: l2` with `sep ∉ l1` peels off `l1`. -/
theorem splitChars_append (sep : Char) :
    ∀ l1 l2 : List Char, sep ∉ l1 →
      splitChars sep (l1 ++ sep :: l2) = l1 :: splitChars sep l2
  | [], l2, _ => by
    show splitChars sep (sep :: l2) = [] :: splitChars sep l2
    rw [splitChars_cons, if_pos (by simp)]
  | c :: cs, l2, h => by
    have hc : ¬(c == sep) = true := by
      simp only [beq_iff_eq]
      intro he
      exact h (he ▸ List.mem_cons_self c cs)
    show splitChars sep (c :: (cs ++ sep :: l2)) = (c :: cs) :: splitChars sep l2
    rw [splitChars_cons, if_neg hc, splitChars_append sep cs l2 (fun hm => h (List.mem_cons_of_mem c hm))]

/-- `jsSplit` recovers the four components of a dotted concatenation of
dot-free strings. -/
theorem jsSplit_four (s1 s2 s3 s4 : String)
    (h1 : '.' ∉ s1.data) (h2 : '.' ∉ s2.data) (h3 : '.' ∉ s3.data) (h4 : '.' ∉ s4.data) :
    jsSplit '.' (s1 ++ "." ++ s2 ++ "." ++ s3 ++ "." ++ s4) = [s1, s2, s3, s4] := by
  have hdata : (s1 ++ "." ++ s2 ++ "." ++ s3 ++ "." ++ s4).data
      = s1.data ++ '.' :: (s2.data ++ '.' :: (s3.data ++ '.' :: s4.data)) := by
    simp only [String.data_append]
    simp [List.append_assoc]
  unfold jsSplit
  rw [hdata, splitChars_append '.' _ _ h1, splitChars_append '.' _ _ h2,
    splitChars_append '.' _ _ h3, splitChars_no_sep '.' _ h4]
  rfl

/-- A serialized URL is never empty: both serializations embed a literal
colon. -/
theorem JSUrl.href_ne_empty (u : JSUrl) : u.href ≠ "" := by
  unfold JSUrl.href
  split
  · intro he
    have h := congrArg String.length he
    simp only [String.length_append] at h
    have h3 : ("://").length = 3 := rfl
    have h0 : ("").length = 0 := rfl
    rw [h3, h0] at h
    omega
  · intro he
    have h := congrArg String.length he
    simp only [String.length_append] at h
    have h1 : (":").length = 1 := rfl
    have h0 : ("").length = 0 := rfl
    rw [h1, h0] at h
    omega

/-- A string of length zero is the empty string. -/
theorem length_zero_empty {s : String} (h : s.length = 0) : s = "" := by
  apply String.ext
  have hd : s.data.length = 0 := h
  rw [List.length_eq_zero.mp hd]

/-- Appending to a non-empty string on the left stays non-empty. -/
theorem app_ne_left {a : String} (b : String) (h : a ≠ "") : a ++ b ≠ "" := by
  intro he
  have hl := congrArg String.length he
  rw [String.length_append] at hl
  have h0 : ("").length = 0 := rfl
  rw [h0] at hl
  exact h (length_zero_empty (by omega))

/-- Appending to a non-empty string on the right stays non-empty. -/
theorem app_ne_right (a : String) {b : String} (h : b ≠ "") : a ++ b ≠ "" := by
  intro he
  have hl := congrArg String.length he
  rw [String.length_append] at hl
  have h0 : ("").length = 0 := rfl
  rw [h0] at hl
  exact h (length_zero_empty (by omega))

/-- Whatever `newURL` produces is a non-empty string: every branch either
serializes a `JSUrl` (which embeds a colon) or builds an explicit
concatenation around `"://"` or around a non-empty `href`. -/
theorem newURL_some_ne_empty {i b s : String} (h : newURL i b = some s) : s ≠ "" := by
  unfold newURL at h
  split at h
  · rcases Option.map_eq_some'.mp h with ⟨u, _, hs⟩
    exact hs ▸ JSUrl.href_ne_empty u
  · rcases Option.bind_eq_some.mp h with ⟨u, _, hf⟩
    split at hf
    · cases hf
    · split at hf
      · cases hf
        exact JSUrl.href_ne_empty u
      · split at hf
        · rcases Option.map_eq_some'.mp hf with ⟨v, _, hs⟩
          exact hs ▸ JSUrl.href_ne_empty v
        · split at hf
          · cases hf
            exact app_ne_left _ (app_ne_left _ (app_ne_left _ (app_ne_right _ (by decide))))
          · split at hf
            · cases hf
              exact app_ne_left _ (app_ne_left _ (app_ne_left _ (app_ne_left _
                (app_ne_right _ (by decide)))))
            · split at hf
              · cases hf
                exact app_ne_left _ (JSUrl.href_ne_empty u)
              · cases hf
                exact app_ne_left _ (app_ne_left _ (app_ne_left _ (app_ne_left _
                  (app_ne_right _ (by decide)))))

/-- Every raw standard icon carries a non-empty `href` (the extractor
checks `if (href)`). -/
theorem rawStandardIcons_href_ne {d : HDoc} {r : RawIcon} (h : r ∈ rawStandardIcons d) :
    r.href ≠ "" := by
  rcases List.mem_filterMap.mp h with ⟨e, _, he⟩
  rcases Option.map_eq_some'.mp he with ⟨href, ht, hr⟩
  have := truthy_eq_some ht
  rw [← hr]
  exact this

/-- Every raw Apple icon carries a non-empty `href`. -/
theorem rawAppleIcons_href_ne {d : HDoc} {r : RawIcon} (h : r ∈ rawAppleIcons d) :
    r.href ≠ "" := by
  rcases List.mem_filterMap.mp h with ⟨e, _, he⟩
  rcases Option.map_eq_some'.mp he with ⟨href, ht, hr⟩
  have := truthy_eq_some ht
  rw [← hr]
  exact this

/-- Every gathered icon candidate has a non-empty url. -/
theorem iconCandList_url_ne {d : HDoc} {c : IconCand} (h : c ∈ iconCandList d) :
    c.url ≠ "" := by
  unfold iconCandList at h
  rcases List.mem_append.mp h with h' | h'
  · rcases List.mem_map.mp h' with ⟨r, hr, rfl⟩
    exact rawStandardIcons_href_ne hr
  · rcases List.mem_map.mp h' with ⟨r, hr, rfl⟩
    exact rawAppleIcons_href_ne hr

/-- Resolution keeps the url non-empty. -/
theorem resolveIconCand_url_ne {url : String} {c : IconCand} (h : c.url ≠ "") :
    (resolveIconCand url c).url ≠ "" := by
  unfold resolveIconCand
  split
  · next href heq => exact newURL_some_ne_empty heq
  · exact h

/-- Resolution does not touch the priority. -/
theorem resolveIconCand_priority (url : String) (c : IconCand) :
    (resolveIconCand url c).priority = c.priority := by
  unfold resolveIconCand
  split <;> rfl

/-- `optPriLt` never holds reflexively. -/
theorem optPriLt_irrefl (p : Option Int) : optPriLt p p = false := by
  cases p <;> simp [optPriLt]

/-- `optPriLt` is asymmetric. -/
theorem optPriLt_asym {p q : Option Int} (h : optPriLt p q = true) : optPriLt q p = false := by
  cases p with
  | none => simp [optPriLt] at h
  | some x =>
    cases q with
    | none => simp [optPriLt] at h
    | some y =>
      simp only [optPriLt, decide_eq_true_eq] at h
      simp only [optPriLt, decide_eq_false_iff_not, not_lt]
      omega

/-- On comparable (non-`NaN`) priorities, non-precedence is transitive. -/
theorem optPriLt_neg_trans {x y z : Int}
    (h1 : optPriLt (some z) (some y) = false) (h2 : optPriLt (some y) (some x) = false) :
    optPriLt (some z) (some x) = false := by
  simp only [optPriLt, decide_eq_false_iff_not, not_lt] at h1 h2 ⊢
  omega

/-! ## Claim theorems -/

/-- Claim C8: for every request whose outbound fetch times out (the axios
abort surfaces as error code `ECONNABORTED` with no response attached), the
handler responds with status 408 and the stable label "Request Timeout",
and the body is an error body — a `RespBody.err`, which carries no
metadata record, so no partial metadata is returned. -/
theorem c8_timeout_yields_408 (load : String → HDoc) (fetchM : String → Option Manifest)
    (now url msg : String) (pu : JSUrl) (h : validateUrl url = .ok pu) :
    handlerModel load fetchM now url (.netFail "ECONNABORTED" msg)
      = (408, .err { status := 408, error := "Request Timeout"
                   , message := "The website took too long to respond", timestamp := now }) := by
  unfold handlerModel
  rw [h]
  rfl

/-- Witness for C8 at a concrete request. -/
theorem c8_timeout_yields_408_witness :
    handlerModel (fun _ => []) (fun _ => none) "2024-05-01T12:00:00.000Z" "https://example.com/"
        (.netFail "ECONNABORTED" "timeout of 8000ms exceeded")
      = (408, .err { status := 408, error := "Request Timeout"
                   , message := "The website took too long to respond"
                   , timestamp := "2024-05-01T12:00:00.000Z" }) :=
  c8_timeout_yields_408 (fun _ => []) (fun _ => none) "2024-05-01T12:00:00.000Z"
    "https://example.com/" "timeout of 8000ms exceeded"
    { scheme := "https", host := "example.com", port := "", path := "/" } rfl

/-- Claim C1, counterexample: an origin 404 is NOT passed through.  The
fetch succeeds at the transport level with upstream status 404, which
passes `validateStatus` (`status >= 200 && status < 500`), so the handler
answers 200 with a success record instead of a 404 upstream-HTTP-error
response. -/
theorem c1_counterexample_404_is_success :
    (handlerModel (fun _ => []) (fun _ => none) "2024-05-01T12:00:00.000Z" "https://example.com/x"
        (.ok { status := 404, statusText := "Not Found", headers := [], data := "" })).fst = 200
    ∧ (handlerModel (fun _ => []) (fun _ => none) "2024-05-01T12:00:00.000Z" "https://example.com/x"
        (.ok { status := 404, statusText := "Not Found", headers := [], data := "" })).snd.isOk
        = true :=
  ⟨rfl, rfl⟩

/-- Claim C1, amended: only upstream statuses rejected by `validateStatus`
— those outside 200–499, e.g. every 5xx — are passed through: the response
status equals the upstream status and the body is an upstream-HTTP error
labelled `HTTP <status>`.  Statuses in 200–499 (404 included) instead
produce a 200 success record whose `responseInfo.status` records the
upstream status. -/
theorem c1_upstream_status_passthrough (load : String → HDoc)
    (fetchM : String → Option Manifest) (now url : String) (pu : JSUrl) (resp : Resp)
    (hv : validateUrl url = .ok pu) :
    (validateStatus resp.status = false →
      handlerModel load fetchM now url (.ok resp)
        = (resp.status,
           .err { status := resp.status
                , error := "HTTP " ++ toString resp.status
                , message := "Website returned " ++ toString resp.status ++ " " ++ resp.statusText
                , timestamp := now }))
    ∧ (validateStatus resp.status = true →
      handlerModel load fetchM now url (.ok resp)
        = (200, .ok (buildRecord (load resp.data) url pu resp now fetchM))
      ∧ (buildRecord (load resp.data) url pu resp now fetchM).responseInfo.status
          = resp.status) := by
  constructor
  · intro hf
    unfold handlerModel
    rw [hv]
    simp only [hf, Bool.false_eq_true, if_false]
    rfl
  · intro ht
    unfold handlerModel
    rw [hv]
    simp only [ht, if_true]
    exact ⟨trivial, rfl⟩

/-- Witness for C1's amended statement at upstream status 503. -/
theorem c1_upstream_status_passthrough_witness :
    handlerModel (fun _ => []) (fun _ => none) "2024-05-01T12:00:00.000Z" "https://example.com/"
        (.ok { status := 503, statusText := "Service Unavailable", headers := [], data := "" })
      = (503, .err { status := 503, error := "HTTP 503"
                   , message := "Website returned 503 Service Unavailable"
                   , timestamp := "2024-05-01T12:00:00.000Z" }) :=
  (c1_upstream_status_passthrough (fun _ => []) (fun _ => none) "2024-05-01T12:00:00.000Z"
    "https://example.com/" { scheme := "https", host := "example.com", port := "", path := "/" }
    { status := 503, statusText := "Service Unavailable", headers := [], data := "" }
    rfl).1 rfl

/-- Claim C3, counterexample: two assemblies over the same parsed document,
the same base URL and the same transport response are not byte-identical —
`metadata.dates.fetched` records the assembly wall-clock instant
(`new Date().toISOString()`), which differs across runs. -/
theorem c3_counterexample_fetched_differs :
    buildRecord [] "https://example.com/x"
        { scheme := "https", host := "example.com", port := "", path := "/x" }
        { status := 200, statusText := "OK", headers := [], data := "" }
        "2024-05-01T12:00:00.000Z" (fun _ => none)
      ≠ buildRecord [] "https://example.com/x"
        { scheme := "https", host := "example.com", port := "", path := "/x" }
        { status := 200, statusText := "OK", headers := [], data := "" }
        "2024-05-01T12:00:01.000Z" (fun _ => none) := by
  intro h
  have h2 := congrArg (fun m => m.metadata.dates.fetched) h
  exact absurd h2 (by decide)

/-- Claim C3, amended: apart from `metadata.dates.fetched`, the assembled
record is a deterministic function of the parsed document, the base URL and
the transport response — blanking that one field makes any two assemblies
byte-identical. -/
theorem c3_deterministic_except_fetched (d : HDoc) (url : String) (pu : JSUrl) (r : Resp)
    (n1 n2 : String) (fetchM : String → Option Manifest) :
    forgetFetched (buildRecord d url pu r n1 fetchM)
      = forgetFetched (buildRecord d url pu r n2 fetchM) := rfl

/-- `firstTruthy` unfolds one step exactly like a `||` link. -/
theorem firstTruthy_cons (a : Option String) (l : List (Option String)) :
    firstTruthy (a :: l) = jsOr a (firstTruthy l) := by
  unfold firstTruthy jsOr
  rw [List.findSome?_cons]
  cases truthy a <;> rfl

/-- `firstTruthy` of no sources is `null`. -/
theorem firstTruthy_nil : firstTruthy [] = none := rfl

/-- Claim C5, counterexample: the extracted title is NOT drawn from the
spec's six-source chain alone — the code consults `meta[name="title"]`
between the Twitter title and the `<title>` text (line 124).  On a document
carrying only `meta[name="title"] = "M"` and `<title>T</title>`, the code
yields "M" where the claimed chain yields "T". -/
theorem c5_counterexample_meta_name_title :
    titleOf [HNode.el "meta" [("name", "title"), ("content", "M")] [],
             HNode.el "title" [] [HNode.txt "T"]] = some "M"
    ∧ specTitleChain [HNode.el "meta" [("name", "title"), ("content", "M")] [],
             HNode.el "title" [] [HNode.txt "T"]] = some "T"
    ∧ (some "M" : Option String) ≠ some "T" :=
  ⟨rfl, rfl, by decide⟩

/-- Claim C5, amended: the extracted title is the first non-empty trimmed
value of the eight-step `||` chain of lines 122–129 — Open Graph title,
Twitter-card title, `meta[name="title"]`, `<title>` text, first `<h1>`
text, first `<h2>` text, Open Graph site name — with empty strings treated
as absent, and no other source consulted. -/
theorem c5_title_is_first_truthy_of_sources (d : HDoc) :
    titleOf d = firstTruthy (titleSources d) := by
  simp only [titleOf, titleSources, firstTruthy_cons, firstTruthy_nil]

/-- Claim C9 (supporting theorem, on the spec-modelled reads — see
`socialOf`): the social group's five scalars are each read independently
from their own meta tag: for any combination of present/absent
`twitter:card`, `twitter:site`, `twitter:creator`, `fb:app_id` and
`fb:admins` tags, each output field equals exactly its own tag's content
and a missing tag leaves every other field untouched. -/
theorem c9_social_fields_independent (card site creator appId admins : Option String) :
    socialOf (mkSocialDoc card site creator appId admins)
      = { twitter := { card := card, site := site, creator := creator }
        , facebook := { appId := appId, admins := admins } } := by
  cases card <;> cases site <;> cases creator <;> cases appId <;> cases admins <;> rfl

/-- Claim C2, counterexample: a `data:` reference is NOT rejected by the
resolver — `new URL(dataUri, base)` succeeds (a `data:` URI is a valid
absolute URL), `resolveUrl` returns it unchanged, and nothing in the
pipeline filters it, so it surfaces as the record's primary image when it
is the Open Graph image. -/
theorem c2_counterexample_data_uri_kept :
    resolveUrl "https://example.com/a" (some "data:image/png;base64,iVBORw")
      = some "data:image/png;base64,iVBORw"
    ∧ (buildRecord
        [HNode.el "meta" [("property", "og:image"), ("content", "data:image/png;base64,iVBORw")] []]
        "https://example.com/a"
        { scheme := "https", host := "example.com", port := "", path := "/a" }
        { status := 200, statusText := "OK", headers := [], data := "" }
        "2024-05-01T12:00:00.000Z" (fun _ => none)).images.primary
      = some "data:image/png;base64,iVBORw" :=
  ⟨rfl, rfl⟩

/-- Claim C2, amended: for every reference beginning with `data:` and
every base URL, the resolver returns the reference itself (never `none`):
`data:` parses as an absolute opaque URL whose serialization is the input,
so data-URI sources are passed through, not filtered. -/
theorem c2_data_uri_resolves_to_itself (base rest : String) :
    resolveUrl base (some ("data:" ++ rest)) = some ("data:" ++ rest) := by
  have hd : ("data:" ++ rest).data = 'd' :: 'a' :: 't' :: 'a' :: ':' :: rest.data := by
    rw [String.data_append]
    rfl
  have hne : ("data:" ++ rest) ≠ "" := string_ne_empty (by rw [hd]; simp)
  have hscheme : parseScheme ("data:" ++ rest) = some ("data", rest) := by
    unfold parseScheme
    rw [hd]
    rfl
  have hnew : newURL ("data:" ++ rest) base = some ("data:" ++ rest) := by
    unfold newURL
    rw [hscheme]
    unfold parseURL
    rw [hscheme]
    rfl
  unfold resolveUrl
  rw [truthy_some_self hne]
  show (match newURL ("data:" ++ rest) base with
        | some href => some href
        | none =>
          if strStarts ("data:" ++ rest) "http" then some ("data:" ++ rest) else none)
      = some ("data:" ++ rest)
  rw [hnew]

/-- Claim C10: the icon facet is computed from the document's own
`link[rel="icon"]`/`link[rel="shortcut icon"]` and Apple touch icon
elements only.  The returned snapshot is independent of the manifest
environment (the `async` each-callback of lines 275–296 pushes its
priority-900 candidates only after the sort, map and return have already
happened), and the candidate list is exactly a permutation of the resolved
document-declared candidates — manifest icons never appear in the list or
as the primary. -/
theorem c10_manifest_icons_never_surface (d : HDoc) (url : String)
    (f g : String → Option Manifest) :
    extractFavicon d url f = extractFavicon d url g
    ∧ ((extractFavicon d url f).all).Perm
        (((rawStandardIcons d).map toStdCand ++ (rawAppleIcons d).map toAppleCand).map
          (resolveIconCand url)) := by
  refine ⟨rfl, ?_⟩
  exact (jsSort_perm iconLt (iconCandList d)).map (resolveIconCand url)

/-- Claim C6, counterexample: the code does NOT rank a sized standard icon
above an unsized one, and its score is not width × height.  A standard
icon with `sizes="8x8"` gets priority `parseInt("8") = 8` while an unsized
one gets the default 16, so the unsized icon ranks first — the spec's
ranking (sized score 64 above unsized score 0) predicts the opposite
order. -/
theorem c6_counterexample_priority_is_width_only :
    ((extractFavicon
        [HNode.el "link" [("rel", "icon"), ("href", "/a.ico"), ("sizes", "8x8")] [],
         HNode.el "link" [("rel", "icon"), ("href", "/b.ico")] []]
        "https://site.test/page" (fun _ => none)).all.map (fun c => c.url))
      = ["https://site.test/b.ico", "https://site.test/a.ico"]
    ∧ ((specIconRank
        [HNode.el "link" [("rel", "icon"), ("href", "/a.ico"), ("sizes", "8x8")] [],
         HNode.el "link" [("rel", "icon"), ("href", "/b.ico")] []]).map (fun r => r.href))
      = ["/a.ico", "/b.ico"] :=
  ⟨rfl, rfl⟩

/-- Claim C6, amended: icon candidates are stable-sorted in descending
order of the code's priority number — 1000 for Apple touch icons, 900 for
manifest icons (which never surface, see C10), `parseInt` of the width
component of a declared `sizes` string for standard icons, and 16 when no
sizes are declared.  When every candidate's priority is a number (no
`NaN`): the output is a permutation of the resolved candidates, no later
output icon strictly outranks an earlier one, and candidates of equal
priority keep their first-seen order (the filter at each priority class is
preserved exactly). -/
theorem c6_icons_sorted_by_code_priority (d : HDoc) (url : String)
    (fetchM : String → Option Manifest)
    (h : ∀ c ∈ iconCandList d, c.priority.isSome = true) :
    ((extractFavicon d url fetchM).all).Perm ((iconCandList d).map (resolveIconCand url))
    ∧ ((extractFavicon d url fetchM).all).Pairwise (fun a b => iconLt b a = false)
    ∧ ∀ p : Option Int,
        ((extractFavicon d url fetchM).all).filter (fun c => c.priority == p)
          = ((iconCandList d).map (resolveIconCand url)).filter (fun c => c.priority == p) := by
  have hall : (extractFavicon d url fetchM).all
      = (jsSort iconLt (iconCandList d)).map (resolveIconCand url) := rfl
  have hasym : ∀ a b : IconCand, iconLt a b = true → iconLt b a = false :=
    fun a b hab => optPriLt_asym hab
  refine ⟨?_, ?_, ?_⟩
  · rw [hall]
    exact (jsSort_perm iconLt (iconCandList d)).map (resolveIconCand url)
  · rw [hall, List.pairwise_map]
    have hp := jsSort_pairwise iconLt hasym (iconCandList d) ?htr
    case htr =>
      intro a b c ha hb hc h1 h2
      rcases Option.isSome_iff_exists.mp (h a ha) with ⟨x, hxa⟩
      rcases Option.isSome_iff_exists.mp (h b hb) with ⟨y, hyb⟩
      rcases Option.isSome_iff_exists.mp (h c hc) with ⟨z, hzc⟩
      unfold iconLt at h1 h2 ⊢
      rw [hzc, hyb] at h1
      rw [hyb, hxa] at h2
      rw [hzc, hxa]
      exact optPriLt_neg_trans h1 h2
    refine hp.imp ?_
    intro a b hab
    unfold iconLt
    rw [resolveIconCand_priority, resolveIconCand_priority]
    exact hab
  · intro p
    rw [hall, List.filter_map, List.filter_map]
    have hq : ∀ c : IconCand,
        ((fun c : IconCand => c.priority == p) ∘ resolveIconCand url) c
          = (fun c : IconCand => c.priority == p) c := by
      intro c
      simp only [Function.comp_apply, resolveIconCand_priority]
    rw [List.filter_congr (fun x _ => hq x), List.filter_congr (fun x _ => hq x)]
    have hcompat : ∀ a b : IconCand,
        (fun c : IconCand => c.priority == p) a = true →
        (fun c : IconCand => c.priority == p) b = true → iconLt a b = false := by
      intro a b hpa hpb
      have ha : a.priority = p := by simpa using hpa
      have hb : b.priority = p := by simpa using hpb
      show optPriLt a.priority b.priority = false
      rw [ha, hb]
      exact optPriLt_irrefl p
    rw [jsSort_filter_class iconLt (fun c => c.priority == p) hcompat (iconCandList d)]

/-- Witness for C6's amended statement at the two-icon document. -/
theorem c6_icons_sorted_witness :
    ((extractFavicon
        [HNode.el "link" [("rel", "icon"), ("href", "/a.ico"), ("sizes", "8x8")] [],
         HNode.el "link" [("rel", "icon"), ("href", "/b.ico")] []]
        "https://site.test/page" (fun _ => none)).all).Perm
      ((iconCandList
        [HNode.el "link" [("rel", "icon"), ("href", "/a.ico"), ("sizes", "8x8")] [],
         HNode.el "link" [("rel", "icon"), ("href", "/b.ico")] []]).map
        (resolveIconCand "https://site.test/page")) :=
  (c6_icons_sorted_by_code_priority
    [HNode.el "link" [("rel", "icon"), ("href", "/a.ico"), ("sizes", "8x8")] [],
     HNode.el "link" [("rel", "icon"), ("href", "/b.ico")] []]
    "https://site.test/page" (fun _ => none) (by decide)).1

/-- Claim C7: for every document fetched through a validated (special,
http/https) base URL, the icon facet's primary URL is always present and
non-empty — it is the highest-ranked candidate's resolved URL when at
least one icon candidate exists (the head of the sorted, resolved list),
and otherwise `/favicon.ico` resolved against the base URL's origin and
path root. -/
theorem c7_primary_icon_always_present (d : HDoc) (fetchM : String → Option Manifest)
    (url : String) (pu : JSUrl) (hp : parseURL url = some pu) (hs : pu.isSpecial = true) :
    ((extractFavicon d url fetchM).all = [] →
      (extractFavicon d url fetchM).primary
        = pu.scheme ++ "://" ++ pu.host ++ pu.port ++ "/favicon.ico")
    ∧ (∀ c rest, (extractFavicon d url fetchM).all = c :: rest →
        (extractFavicon d url fetchM).primary = c.url)
    ∧ (extractFavicon d url fetchM).primary ≠ "" := by
  have hfb : newURL "/favicon.ico" url
      = some (pu.scheme ++ "://" ++ pu.host ++ pu.port ++ "/favicon.ico") := by
    simp only [newURL, show parseScheme "/favicon.ico" = none from rfl, hp, Option.some_bind,
      hs, Bool.not_true, Bool.false_eq_true, if_false]
    rfl
  have hfbne : (pu.scheme ++ "://" ++ pu.host ++ pu.port ++ "/favicon.ico") ≠ "" :=
    app_ne_right _ (by decide)
  have hprim : (extractFavicon d url fetchM).primary
      = (match jsOr (((extractFavicon d url fetchM).all).head?.map (fun c => c.url))
            (newURL "/favicon.ico" url) with
         | some s => s
         | none => "") := rfl
  have hempty : (extractFavicon d url fetchM).all = [] →
      (extractFavicon d url fetchM).primary
        = pu.scheme ++ "://" ++ pu.host ++ pu.port ++ "/favicon.ico" := by
    intro hall
    rw [hprim, hall, List.head?_nil, Option.map_none', hfb]
    rfl
  have hcons : ∀ c rest, (extractFavicon d url fetchM).all = c :: rest →
      (extractFavicon d url fetchM).primary = c.url ∧ c.url ≠ "" := by
    intro c rest hall
    have hmem0 : c ∈ (extractFavicon d url fetchM).all := by
      rw [hall]
      exact List.mem_cons_self c rest
    have hmem : c ∈ (jsSort iconLt (iconCandList d)).map (resolveIconCand url) := hmem0
    have hcu : c.url ≠ "" := by
      rcases List.mem_map.mp hmem with ⟨c', hc', rfl⟩
      have hc'' : c' ∈ iconCandList d :=
        (jsSort_perm iconLt (iconCandList d)).mem_iff.mp hc'
      exact resolveIconCand_url_ne (iconCandList_url_ne hc'')
    refine ⟨?_, hcu⟩
    rw [hprim, hall, List.head?_cons, Option.map_some']
    rw [jsOr, truthy_some_self hcu]
  refine ⟨hempty, fun c rest hc => (hcons c rest hc).1, ?_⟩
  rcases hres : (extractFavicon d url fetchM).all with _ | ⟨c, rest⟩
  · rw [hempty hres]
    exact hfbne
  · rw [(hcons c rest hres).1]
    exact (hcons c rest hres).2

/-- Witness for C7: a document with no icon links at all and base
`https://site.test/page` yields primary `https://site.test/favicon.ico`. -/
theorem c7_primary_icon_always_present_witness :
    (extractFavicon [] "https://site.test/page" (fun _ => none)).primary
      = "https://site.test/favicon.ico" :=
  (c7_primary_icon_always_present [] (fun _ => none) "https://site.test/page"
    { scheme := "https", host := "site.test", port := "", path := "/page" } rfl rfl).1 rfl

/-- Unpack the three components of `digits13`. -/
theorem digits13_parts {s : String} (h : digits13 s = true) :
    s.data ≠ [] ∧ s.data.length ≤ 3 ∧ s.data.all isDigitC = true := by
  simp only [digits13, Bool.and_eq_true, Bool.not_eq_true', decide_eq_true_eq] at h
  obtain ⟨⟨he, hl⟩, hd⟩ := h
  refine ⟨?_, hl, hd⟩
  intro hnil
  rw [hnil] at he
  simp at he

/-- A digit run contains no dot. -/
theorem no_dot_of_digits {s : String} (h : s.data.all isDigitC = true) : '.' ∉ s.data := by
  intro hm
  have := List.all_eq_true.mp h '.' hm
  exact absurd this (by decide)

/-- The character-list decomposition of a four-part dotted concatenation. -/
theorem dotted_data (s1 s2 s3 s4 : String) :
    (s1 ++ "." ++ s2 ++ "." ++ s3 ++ "." ++ s4).data
      = s1.data ++ '.' :: (s2.data ++ '.' :: (s3.data ++ '.' :: s4.data)) := by
  simp only [String.data_append]
  simp [List.append_assoc]

/-- The per-component condition of the IPv4 regex holds of a `digits13`
component. -/
theorem ipPattern_component {s : String} (h : digits13 s = true) :
    (decide (1 ≤ s.data.length) && decide (s.data.length ≤ 3) && s.data.all isDigitC) = true := by
  obtain ⟨hne, hl, hd⟩ := digits13_parts h
  simp only [Bool.and_eq_true, decide_eq_true_eq]
  refine ⟨⟨?_, hl⟩, hd⟩
  cases hs : s.data with
  | nil => exact absurd hs hne
  | cons c cs => simp [hs]

/-- Claim C4, counterexample: a hostname merely containing the substring
`internal` is NOT rejected — the blocked-host check is exact membership
(`Array.prototype.includes`), so `my-internal.example.com` passes
validation and the fetch proceeds to a success response. -/
theorem c4_counterexample_substring_not_blocked :
    jsIncludes "my-internal.example.com" "internal" = true
    ∧ hostCheck "my-internal.example.com" = none
    ∧ validateUrl "https://my-internal.example.com/"
        = .ok { scheme := "https", host := "my-internal.example.com", port := "", path := "/" }
    ∧ (handlerModel (fun _ => []) (fun _ => none) "2024-05-01T12:00:00.000Z"
        "https://my-internal.example.com/"
        (.ok { status := 200, statusText := "OK", headers := [], data := "" })).snd.isOk
        = true :=
  ⟨rfl, rfl, rfl, rfl⟩

/-- Claim C4, amended: the hostname gate blocks (with a 403) exactly the
hosts whose lowercased form is one of the six literals `localhost`,
`127.0.0.1`, `0.0.0.0`, `[::1]`, `internal`, `private`, and every
dotted-quad IPv4 literal in `10.0.0.0/8`, `172.16.0.0/12` or
`192.168.0.0/16`; a rejection short-circuits the handler before the
transport is consulted (the response does not depend on the fetch
outcome).  A hostname that merely contains `internal`/`private` as a
substring is not blocked. -/
theorem c4_host_block_exact_and_private_ip :
    (∀ h : String, jsToLower h ∈ blockedHosts →
      hostCheck h = some (403, "Access to local/internal resources is blocked"))
    ∧ (∀ s1 s2 s3 s4 : String,
        digits13 s1 = true → digits13 s2 = true → digits13 s3 = true → digits13 s4 = true →
        privateParts [jsNumberNat s1, jsNumberNat s2, jsNumberNat s3, jsNumberNat s4] = true →
        hostCheck (s1 ++ "." ++ s2 ++ "." ++ s3 ++ "." ++ s4)
          = some (403, "Private IP addresses are not allowed"))
    ∧ (∀ (load : String → HDoc) (fetchM : String → Option Manifest) (now url : String)
        (st : Nat) (e : String) (t1 t2 : FetchOutcome),
        validateUrl url = .reject st e →
        handlerModel load fetchM now url t1 = (st, .reject st e)
        ∧ handlerModel load fetchM now url t1 = handlerModel load fetchM now url t2) := by
  refine ⟨?_, ?_, ?_⟩
  · intro h hmem
    show (if blockedHosts.contains (jsToLower h) then
            some ((403 : Nat), "Access to local/internal resources is blocked")
          else if ipPattern (jsToLower h) then
            if privateParts ((jsSplit '.' (jsToLower h)).map jsNumberNat) then
              some (403, "Private IP addresses are not allowed")
            else none
          else none)
        = some (403, "Access to local/internal resources is blocked")
    rw [if_pos (List.elem_iff.mpr hmem)]
  · intro s1 s2 s3 s4 h1 h2 h3 h4 hpriv
    obtain ⟨hne1, hlen1, hd1⟩ := digits13_parts h1
    obtain ⟨hne2, hlen2, hd2⟩ := digits13_parts h2
    obtain ⟨hne3, hlen3, hd3⟩ := digits13_parts h3
    obtain ⟨hne4, hlen4, hd4⟩ := digits13_parts h4
    have hdata := dotted_data s1 s2 s3 s4
    have hsplit : jsSplit '.' (s1 ++ "." ++ s2 ++ "." ++ s3 ++ "." ++ s4) = [s1, s2, s3, s4] :=
      jsSplit_four s1 s2 s3 s4 (no_dot_of_digits hd1) (no_dot_of_digits hd2)
        (no_dot_of_digits hd3) (no_dot_of_digits hd4)
    have hlow : jsToLower (s1 ++ "." ++ s2 ++ "." ++ s3 ++ "." ++ s4)
        = s1 ++ "." ++ s2 ++ "." ++ s3 ++ "." ++ s4 := by
      apply jsToLower_invariant
      intro c hc
      rw [hdata] at hc
      rcases List.mem_append.mp hc with hcm | hcm
      · exact lcChar_digit (List.all_eq_true.mp hd1 c hcm)
      · rcases List.mem_cons.mp hcm with rfl | hcm
        · exact lcChar_dot
        · rcases List.mem_append.mp hcm with hcm | hcm
          · exact lcChar_digit (List.all_eq_true.mp hd2 c hcm)
          · rcases List.mem_cons.mp hcm with rfl | hcm
            · exact lcChar_dot
            · rcases List.mem_append.mp hcm with hcm | hcm
              · exact lcChar_digit (List.all_eq_true.mp hd3 c hcm)
              · rcases List.mem_cons.mp hcm with rfl | hcm
                · exact lcChar_dot
                · exact lcChar_digit (List.all_eq_true.mp hd4 c hcm)
    have hnotmem : (s1 ++ "." ++ s2 ++ "." ++ s3 ++ "." ++ s4) ∉ blockedHosts := by
      intro hmem
      have hdot : '.' ∈ (s1 ++ "." ++ s2 ++ "." ++ s3 ++ "." ++ s4).data := by
        rw [hdata]
        exact List.mem_append.mpr (Or.inr (List.mem_cons_self _ _))
      simp only [blockedHosts, List.mem_cons, List.not_mem_nil, or_false] at hmem
      rcases hmem with hc | hc | hc | hc | hc | hc
      · rw [hc] at hdot
        exact absurd hdot (by decide)
      · have hs' : jsSplit '.' "127.0.0.1" = [s1, s2, s3, s4] := by rw [← hc]; exact hsplit
        have heq : [s1, s2, s3, s4] = (["127", "0", "0", "1"] : List String) := by
          rw [← hs']
          rfl
        simp only [List.cons.injEq, and_true] at heq
        obtain ⟨e1, e2, e3, e4⟩ := heq
        rw [e1, e2, e3, e4] at hpriv
        exact absurd hpriv (by decide)
      · have hs' : jsSplit '.' "0.0.0.0" = [s1, s2, s3, s4] := by rw [← hc]; exact hsplit
        have heq : [s1, s2, s3, s4] = (["0", "0", "0", "0"] : List String) := by
          rw [← hs']
          rfl
        simp only [List.cons.injEq, and_true] at heq
        obtain ⟨e1, e2, e3, e4⟩ := heq
        rw [e1, e2, e3, e4] at hpriv
        exact absurd hpriv (by decide)
      · rw [hc] at hdot
        exact absurd hdot (by decide)
      · rw [hc] at hdot
        exact absurd hdot (by decide)
      · rw [hc] at hdot
        exact absurd hdot (by decide)
    have hcontains : blockedHosts.contains (s1 ++ "." ++ s2 ++ "." ++ s3 ++ "." ++ s4) = false := by
      by_contra hcc
      rw [Bool.not_eq_false] at hcc
      exact hnotmem (List.elem_iff.mp hcc)
    have hip : ipPattern (s1 ++ "." ++ s2 ++ "." ++ s3 ++ "." ++ s4) = true := by
      show ((jsSplit '.' (s1 ++ "." ++ s2 ++ "." ++ s3 ++ "." ++ s4)).length == 4
          && (jsSplit '.' (s1 ++ "." ++ s2 ++ "." ++ s3 ++ "." ++ s4)).all
            (fun p => decide (1 ≤ p.data.length) && decide (p.data.length ≤ 3)
              && p.data.all isDigitC)) = true
      rw [hsplit]
      simp only [List.all_cons, List.all_nil, Bool.and_eq_true]
      refine ⟨rfl, ?_⟩
      have g1 := ipPattern_component h1
      have g2 := ipPattern_component h2
      have g3 := ipPattern_component h3
      have g4 := ipPattern_component h4
      simp only [Bool.and_eq_true] at g1 g2 g3 g4 ⊢
      exact ⟨g1, g2, g3, g4, trivial⟩
    show (if blockedHosts.contains (jsToLower (s1 ++ "." ++ s2 ++ "." ++ s3 ++ "." ++ s4)) then
            some ((403 : Nat), "Access to local/internal resources is blocked")
          else if ipPattern (jsToLower (s1 ++ "." ++ s2 ++ "." ++ s3 ++ "." ++ s4)) then
            if privateParts ((jsSplit '.' (jsToLower (s1 ++ "." ++ s2 ++ "." ++ s3 ++ "." ++ s4))).map
                jsNumberNat) then
              some (403, "Private IP addresses are not allowed")
            else none
          else none)
        = some (403, "Private IP addresses are not allowed")
    rw [hlow, hcontains]
    simp only [Bool.false_eq_true, if_false]
    rw [hip]
    simp only [if_true]
    rw [hsplit]
    have hm : ([s1, s2, s3, s4].map jsNumberNat)
        = [jsNumberNat s1, jsNumberNat s2, jsNumberNat s3, jsNumberNat s4] := rfl
    rw [hm, if_pos hpriv]
  · intro load fetchM now url st e t1 t2 hrej
    constructor
    · unfold handlerModel
      rw [hrej]
    · unfold handlerModel
      rw [hrej]

/-- Witness for C4's amended statement: `10.1.2.3` is rejected as a
private IPv4 literal and `localhost` as an exact blocked host. -/
theorem c4_host_block_witness :
    hostCheck "10.1.2.3" = some (403, "Private IP addresses are not allowed")
    ∧ hostCheck "localhost" = some (403, "Access to local/internal resources is blocked") :=
  ⟨c4_host_block_exact_and_private_ip.2.1 "10" "1" "2" "3"
      (by decide) (by decide) (by decide) (by decide) (by decide),
   c4_host_block_exact_and_private_ip.1 "localhost" (by decide)⟩
